import Mathlib

/-! # siphon: the Host session engine

A shallow embedding of `host.go` and `protocol.go`.

* Protocol records are plain structures; a nil `[]byte` is `none`.
* Calls into the transport, the pipes and the kernel are answered by an
  environment: every loop iteration of a lane receives the answers to the
  calls it may make (`InStep`, `OutStep`).
* Each lane of `handleRemoteClient` is a function from the answers it receives
  to the list of effects it performs (`Event`) and the way it ends.
* The two goroutines of a session are merged by an arbitrary schedule, so a
  statement quantified over the schedule holds for every interleaving.  A Go
  panic in either goroutine stops the whole program at that point.
-/

set_option linter.dupNamespace false

namespace Siphon

/-! ## Protocol records (protocol.go) -/

/-- A Go byte slice that is not nil. -/
abbrev Bytes := List (Fin 256)

/-- The address descriptor of a host: the fields `host.go` reads from it. -/
structure Addr where
  Proto : String
  Addr : String
  Label : String
deriving DecidableEq, Repr

/-- The streaming record `Message`; `Content = none` is the nil slice and the
two integers are zero when the fields are absent from the wire. -/
structure Message where
  Content : Option Bytes
  TtyHeight : Int
  TtyWidth : Int
deriving DecidableEq, Repr

/-- First record sent after dialing a connection. -/
structure Hello where
  Siphon : String
  Hello : String
deriving DecidableEq, Repr

/-- The answer to a `Hello`. -/
structure HelloAck where
  Siphon : String
  Hello : String
deriving DecidableEq, Repr

/-- The record a daemon uses to send a client elsewhere. -/
structure Redirect where
  Addr : Addr
deriving DecidableEq, Repr

/-- A value handed to `conn.Encode`: any of the four protocol records. -/
inductive Record where
  | hello (v : Hello)
  | helloAck (v : HelloAck)
  | redirect (v : Redirect)
  | message (v : Message)
deriving DecidableEq, Repr

/-! ## Effects -/

/-- The lines `host.go` prints to the diagnostic sink `log.host`. -/
inductive LogLine where
  /-- Line 76: the first `Decode` failed. -/
  | helloDecodeFailed
  /-- Line 80: "Encountered a non-siphon.Protocol, dropping client". -/
  | nonSiphon
  /-- Line 84: "Unexpected hello from not a client protocol, dropping client". -/
  | notAClient
  /-- Line 91: the `Encode` of the `HelloAck` failed. -/
  | ackEncodeFailed
  /-- Line 113: "client closed client input". -/
  | closedClientInput
  /-- Line 137: "client output closed". -/
  | outputClosed
  /-- Line 217: "resizing pty to h= w=". -/
  | resizing (h w : Int)
  /-- Line 150: "halting accept of new client connections". -/
  | haltingAccept
deriving DecidableEq, Repr

/-- The error value returned next to `nr` by `out.Read(buf)`. -/
inductive ReadErr where
  | nil
  | EOF
  | other
deriving DecidableEq, Repr

/-- The terminal size structure of the `term` package: two `uint16` fields. -/
structure Winsize where
  Height : Nat
  Width : Nat
deriving DecidableEq, Repr

/-- Identity of a `net.Listener`. -/
abbrev Listener := Nat

/-- One observable effect of the code on the connection, the pipes, the pty,
the listener or the diagnostic sink. -/
inductive Event where
  /-- The call `conn.Decode(&hai)` and its result (`none`: an error). -/
  | decodeHello (r : Option Hello)
  /-- The call `conn.Decode(&m)` and its result (`none`: an error). -/
  | decodeMessage (r : Option Message)
  /-- The call `conn.Encode(v)` and whether it returned no error. -/
  | encode (v : Record) (ok : Bool)
  /-- The call `in.Write(p)` on the shared stdin sink and whether it
  returned no error. -/
  | stdinWrite (p : Bytes) (ok : Bool)
  /-- The call `term.SetWinsize(host.pty.Fd(), ws)` made by `Resize` and the
  errno it returned. -/
  | setWinsize (ws : Winsize) (errno : Nat)
  /-- The call `host.StdoutPipe()`: a new pipe whose writer is added to the
  broadcaster and whose reader is the tap of the session. -/
  | stdoutPipe
  /-- The call `out.Read(buf)` on the tap: the bytes `buf[0:nr]` and the error. -/
  | read (data : Bytes) (err : ReadErr)
  /-- A call `out.Close()` on the tap. -/
  | readerClose
  /-- The call `conn.Close()`. -/
  | connClose
  /-- The call `x.Close()` on a listener. -/
  | listenerClose (x : Listener)
  /-- A line printed to `log.host`. -/
  | log (l : LogLine)
  /-- A Go panic: the program stops here. -/
  | goPanic
deriving DecidableEq, Repr

/-- How a goroutine (or the whole call) ends: it returns, it panics, or it
stays blocked in a call the environment never answers. -/
inductive Ending where
  | returned
  | panicked
  | blocked
deriving DecidableEq, Repr

/-- What a loop body does next: start the next iteration, leave the loop
(`break`), or panic. -/
inductive Flow where
  | again
  | leave
  | abort
deriving DecidableEq, Repr

/-! ## The Host (host.go) -/

/-- The part of `Host` the embedded functions read or write, together with
the state of the two kernel objects it owns.

* `stdinPipe`: the bytes accepted so far by the write end `host.stdinPipe`;
* `pty`: the window size the kernel holds for `host.pty`;
* `exitCh`: `true` once `close(host.exitCh)` has run;
* `exitCode`, `listener`: the fields of the same name. -/
structure Host where
  stdinPipe : Bytes
  pty : Winsize
  exitCh : Bool
  exitCode : Int
  listener : Option Listener
deriving DecidableEq, Repr

/-- Function `NewHost`: every field not assigned keeps its zero value, the
channel is open and the pipe is empty. -/
def NewHost : Host :=
  { stdinPipe := [], pty := ⟨0, 0⟩, exitCh := false, exitCode := 0, listener := none }

/-- The Go conversion `uint16(x)` of an `int`. -/
def uint16 (x : Int) : Nat := (x % 65536).toNat

/-- The ioctl behind `term.SetWinsize`: with errno 0 the kernel records the
size it was given, with any other errno it leaves the size as it was. -/
def SetWinsize (pty : Winsize) (ws : Winsize) (errno : Nat) : Winsize :=
  if errno = 0 then ws else pty

/-- The outcome of a call into the Host: the Host afterwards, the effects,
and whether the call panicked. -/
structure Call where
  host : Host
  events : List Event
  panicked : Bool
deriving DecidableEq, Repr

/-- Method `Host.Resize(h, w)`, where `errno` is what the terminal-size call
answers.  It has no result value; a nonzero errno makes it panic. -/
def Host.Resize (host : Host) (h w : Int) (errno : Nat) : Call :=
  let ws : Winsize := ⟨uint16 h, uint16 w⟩
  let after : Host := { host with pty := SetWinsize host.pty ws errno }
  if errno ≠ 0 then
    ⟨after, [.log (.resizing h w), .setWinsize ws errno, .goPanic], true⟩
  else
    ⟨after, [.log (.resizing h w), .setWinsize ws errno], false⟩

/-- Method `Host.UnServe()`: the Host afterwards and the effects. -/
def Host.UnServe (host : Host) : Host × List Event :=
  match host.listener with
  | none => (host, [])
  | some x => ({ host with listener := none }, [.log .haltingAccept, .listenerClose x])

/-! ### Exit status -/

/-- The type `syscall.WaitStatus` (a `uint32`) of the Go standard library. -/
abbrev WaitStatus := Nat

/-- Library method `WaitStatus.Exited`: `w & 0x7F == 0`. -/
def WaitStatus.Exited (w : WaitStatus) : Bool := w % 128 == 0

/-- Library method `WaitStatus.Signaled`: the low seven bits are neither
`0x7F` (stopped) nor `0` (exited). -/
def WaitStatus.Signaled (w : WaitStatus) : Bool := w % 128 != 127 && w % 128 != 0

/-- Library method `WaitStatus.Signal`: the low seven bits of a signaled
status, `-1` otherwise. -/
def WaitStatus.Signal (w : WaitStatus) : Int :=
  if WaitStatus.Signaled w then ((w % 128 : Nat) : Int) else -1

/-- Library method `WaitStatus.ExitStatus`: `-1` unless the process exited,
else `(w >> 8) & 0xFF`. -/
def WaitStatus.ExitStatus (w : WaitStatus) : Int :=
  if WaitStatus.Exited w then ((w / 256 % 256 : Nat) : Int) else -1

/-- The error value returned by `host.cmd.Wait()`. -/
inductive WaitError where
  /-- No error. -/
  | nil
  /-- An `*exec.ExitError`; `sys` is the `syscall.WaitStatus` behind `Sys()`,
  or `none` when `Sys()` is of another type. -/
  | exitError (sys : Option WaitStatus)
  /-- Any other error. -/
  | other
deriving DecidableEq, Repr

/-- Library method `exec.Cmd.Wait` for a child whose standard streams are
files and whose wait status is `w`: no error when the process exited with
status 0, an `*exec.ExitError` carrying `w` otherwise. -/
def cmdWait (w : WaitStatus) : WaitError :=
  if WaitStatus.Exited w && WaitStatus.ExitStatus w == 0 then .nil else .exitError (some w)

/-- The exit-wait goroutine of `Host.Start` (lines 184-192), given the result
of `host.cmd.Wait()`; `none` is the panic of line 189. -/
def exitWaitTask (host : Host) (err : WaitError) : Option Host :=
  match err with
  | .exitError (some waitStatus) =>
      some { host with exitCode := WaitStatus.ExitStatus waitStatus, exitCh := true }
  | .exitError none => none
  | _ => some { host with exitCh := true }

/-- Method `Host.Wait()`: the value returned (`none` while the receive on
`host.exitCh` blocks, the exit code once the channel is closed) and the Host
afterwards. -/
def Host.Wait (host : Host) : Option Int × Host :=
  (if host.exitCh then some host.exitCode else none, host)

/-! ## The lanes of a session (host.go, lines 95-140) -/

/-- The answers of the environment during one iteration of the inbound loop:
the result of `conn.Decode(&m)`, whether `in.Write` returns no error, and the
errno of the terminal-size call. -/
structure InStep where
  decoded : Option Message
  writeOk : Bool
  errno : Nat
deriving DecidableEq, Repr

/-- The outcome of one loop iteration. -/
structure Iter where
  host : Host
  events : List Event
  flow : Flow
deriving DecidableEq, Repr

/-- One iteration of the inbound loop (lines 100-111). -/
def inboundIter (host : Host) (s : InStep) : Iter :=
  match s.decoded with
  | none => ⟨host, [.decodeMessage none], .leave⟩
  | some m =>
    match m.Content with
    | some c =>
      if s.writeOk then
        ⟨{ host with stdinPipe := host.stdinPipe ++ c },
          [.decodeMessage (some m), .stdinWrite c true], .again⟩
      else
        ⟨host, [.decodeMessage (some m), .stdinWrite c false, .goPanic], .abort⟩
    | none =>
      if m.TtyHeight ≠ 0 ∧ m.TtyWidth ≠ 0 then
        let r := host.Resize m.TtyHeight m.TtyWidth s.errno
        ⟨r.host, .decodeMessage (some m) :: r.events, if r.panicked then .abort else .again⟩
      else
        ⟨host, [.decodeMessage (some m)], .again⟩

/-- The run of a lane: the Host afterwards, its effects in order, its end. -/
structure LaneRun where
  host : Host
  events : List Event
  ending : Ending
deriving DecidableEq, Repr

/-- The inbound loop (lines 99-112).  When the answers run out the lane is
blocked in `conn.Decode`. -/
def inboundLoop : Host → List InStep → LaneRun
  | host, [] => ⟨host, [], .blocked⟩
  | host, s :: rest =>
    let r := inboundIter host s
    match r.flow with
    | .again =>
      let t := inboundLoop r.host rest
      ⟨t.host, r.events ++ t.events, t.ending⟩
    | .leave => ⟨r.host, r.events, .returned⟩
    | .abort => ⟨r.host, r.events, .panicked⟩

/-- The inbound goroutine (lines 97-115): the loop, then the log line.
`host.StdinPipe()` only returns the field `stdinPipe`. -/
def inboundLane (host : Host) (steps : List InStep) : LaneRun :=
  let r := inboundLoop host steps
  match r.ending with
  | .returned => ⟨r.host, r.events ++ [.log .closedClientInput], .returned⟩
  | _ => r

/-- The answers of the environment during one iteration of the outbound loop:
the bytes `buf[0:nr]` and the error of `out.Read(buf)`, and whether
`conn.Encode(&m)` returns no error. -/
structure OutStep where
  data : Bytes
  err : ReadErr
  encodeOk : Bool
deriving DecidableEq, Repr

/-- One iteration of the outbound loop (lines 123-135): its effects and what
the loop does next. -/
def outboundIter (s : OutStep) : List Event × Flow :=
  let rd : Event := .read s.data s.err
  if s.data.length > 0 then
    let m : Message := { Content := some s.data, TtyHeight := 0, TtyWidth := 0 }
    if s.encodeOk = false then ([rd, .encode (.message m) false], .leave)
    else if s.err = .EOF then ([rd, .encode (.message m) true], .leave)
    else if s.err ≠ .nil then ([rd, .encode (.message m) true, .goPanic], .abort)
    else ([rd, .encode (.message m) true], .again)
  else
    if s.err = .EOF then ([rd], .leave)
    else if s.err ≠ .nil then ([rd, .goPanic], .abort)
    else ([rd], .again)

/-- The outbound loop (lines 122-136).  When the answers run out the lane is
blocked in `out.Read`. -/
def outboundLoop : List OutStep → List Event × Ending
  | [] => ([], .blocked)
  | s :: rest =>
    match outboundIter s with
    | (ev, .again) => (ev ++ (outboundLoop rest).1, (outboundLoop rest).2)
    | (ev, .leave) => (ev, .returned)
    | (ev, .abort) => (ev, .panicked)

/-- The outbound goroutine (lines 119-140): `StdoutPipe`, the loop, then the
log line and `conn.Close()`. -/
def outboundLane (steps : List OutStep) : List Event × Ending :=
  match outboundLoop steps with
  | (ev, .returned) => (.stdoutPipe :: ev ++ [.log .outputClosed, .connClose], .returned)
  | (ev, e) => (.stdoutPipe :: ev, e)

/-! ## The session (host.go, lines 69-143) -/

/-- Merge of the effects of two goroutines: the schedule says which one moves
next; when it runs out, or a goroutine has no move left, the rest follows. -/
def interleave : List Bool → List Event → List Event → List Event
  | _, [], ys => ys
  | _, x :: xs, [] => x :: xs
  | [], x :: xs, y :: ys => x :: xs ++ y :: ys
  | true :: s, x :: xs, y :: ys => x :: interleave s xs (y :: ys)
  | false :: s, x :: xs, y :: ys => y :: interleave s (x :: xs) ys

/-- The effects up to and including the first panic. -/
def cutAtPanic : List Event → List Event
  | [] => []
  | e :: rest => if e = .goPanic then [e] else e :: cutAtPanic rest

/-- Everything the environment answers during one session: the result of the
first `Decode`, whether the `Encode` of the `HelloAck` returns no error, the
answers to both lanes, and the schedule of the two goroutines. -/
structure Env where
  hello : Option Hello
  ackOk : Bool
  inbound : List InStep
  outbound : List OutStep
  sched : List Bool
deriving DecidableEq, Repr

/-- The run of a session: its effects in order and how the call ends. -/
structure Run where
  trace : List Event
  ending : Ending
deriving DecidableEq, Repr

/-- The two lanes running together (lines 95-142) and the deferred
`conn.Close()` once `track.Wait()` returns. -/
def streaming (host : Host) (env : Env) : Run :=
  let i := inboundLane host env.inbound
  let o := outboundLane env.outbound
  let body := interleave env.sched i.events o.1
  if Event.goPanic ∈ body then ⟨cutAtPanic body, .panicked⟩
  else if i.ending = .returned ∧ o.2 = .returned then ⟨body ++ [.connClose], .returned⟩
  else ⟨body, .blocked⟩

/-- Method `Host.handleRemoteClient(conn)`. -/
def handleRemoteClient (host : Host) (env : Env) : Run :=
  match env.hello with
  | none => ⟨[.decodeHello none, .log .helloDecodeFailed, .connClose], .returned⟩
  | some hai =>
    if hai.Siphon ≠ "siphon" then
      ⟨[.decodeHello (some hai), .log .nonSiphon, .connClose], .returned⟩
    else if hai.Hello ≠ "client" then
      ⟨[.decodeHello (some hai), .log .notAClient, .connClose], .returned⟩
    else
      let ack : Event := .encode (.helloAck { Siphon := "siphon", Hello := "server" }) env.ackOk
      if env.ackOk = false then
        ⟨[.decodeHello (some hai), ack, .log .ackEncodeFailed, .connClose], .returned⟩
      else
        let r := streaming host env
        ⟨.decodeHello (some hai) :: ack :: r.trace, r.ending⟩

/-! ## Observations on a trace -/

/-- The records handed to `conn.Encode`, in order. -/
def encoded : List Event → List Record
  | [] => []
  | .encode v _ :: rest => v :: encoded rest
  | _ :: rest => encoded rest

/-- The byte slices handed to `in.Write`, in order. -/
def stdinWrites : List Event → List Bytes
  | [] => []
  | .stdinWrite p _ :: rest => p :: stdinWrites rest
  | _ :: rest => stdinWrites rest

/-- The arguments of the calls to `host.Resize`, in order: every call starts
with the log line of line 217. -/
def resizeCalls : List Event → List (Int × Int)
  | [] => []
  | .log (.resizing h w) :: rest => (h, w) :: resizeCalls rest
  | _ :: rest => resizeCalls rest

/-- The results of `conn.Decode(&m)`, in order. -/
def decodedMessages : List Event → List (Option Message)
  | [] => []
  | .decodeMessage r :: rest => r :: decodedMessages rest
  | _ :: rest => decodedMessages rest

/-- The content of a record when it is a `Message` with content. -/
def Record.content : Record → Bytes
  | .message m => m.Content.getD []
  | _ => []

/-- The `Message` the outbound lane builds around the bytes it read. -/
def contentMessage (data : Bytes) : Record :=
  .message { Content := some data, TtyHeight := 0, TtyWidth := 0 }

/-- The effects the inbound goroutine can perform. -/
def Event.isInbound : Event → Bool
  | .decodeMessage _ => true
  | .stdinWrite _ _ => true
  | .setWinsize _ _ => true
  | .log (.resizing _ _) => true
  | .log .closedClientInput => true
  | .goPanic => true
  | _ => false

/-- The effects the outbound goroutine can perform. -/
def Event.isOutbound : Event → Bool
  | .stdoutPipe => true
  | .read _ _ => true
  | .encode (.message _) _ => true
  | .log .outputClosed => true
  | .connClose => true
  | .goPanic => true
  | _ => false

/-! ## Concrete inputs -/

/-- A well-formed first record. -/
def goodHello : Hello := { Siphon := "siphon", Hello := "client" }

/-- A first record from something that is not a client. -/
def daemonHello : Hello := { Siphon := "siphon", Hello := "daemon" }

/-- A session whose first record is rejected; the streaming answers are
present but must never be consumed. -/
def rejectedEnv : Env :=
  { hello := some daemonHello, ackOk := true,
    inbound := [⟨some ⟨some [104, 105], 0, 0⟩, true, 0⟩],
    outbound := [⟨[111, 107], .nil, true⟩], sched := [true, false] }

/-- A session with input, a resize, output and an orderly end. -/
def busyEnv : Env :=
  { hello := some goodHello, ackOk := true,
    inbound := [⟨some ⟨none, 40, 120⟩, true, 0⟩, ⟨some ⟨some [108, 115], 0, 0⟩, true, 0⟩,
      ⟨none, true, 0⟩],
    outbound := [⟨[36, 32], .nil, true⟩, ⟨[], .nil, true⟩, ⟨[97, 10], .EOF, true⟩],
    sched := [false, true, true, false] }

/-- Input typed by a client: two messages with content; the lane then waits
for more. -/
def typedSteps : List InStep :=
  [⟨some ⟨some [108], 0, 0⟩, true, 0⟩, ⟨some ⟨some [115, 10], 0, 0⟩, true, 0⟩]

/-- A message that carries content and a resize pair at once. -/
def contentAndSizeStep : InStep := ⟨some ⟨some [113], 24, 80⟩, true, 0⟩

/-- The resize request of the scenario: height 40, width 120. -/
def resizeStep : InStep := ⟨some ⟨none, 40, 120⟩, true, 0⟩

/-- A resize request whose height does not fit sixteen bits. -/
def tallResizeStep : InStep := ⟨some ⟨none, 65576, 120⟩, true, 0⟩

/-- A message with neither content nor a full resize pair. -/
def emptyStep : InStep := ⟨some ⟨none, 0, 80⟩, true, 0⟩

/-- A resize request the terminal refuses with errno 25 (ENOTTY). -/
def refusedResizeStep : InStep := ⟨some ⟨none, 24, 80⟩, true, 25⟩

/-- What the client sends after the message under test: one byte of input,
then the connection ends. -/
def laterSteps : List InStep := [⟨some ⟨some [104], 0, 0⟩, true, 0⟩, ⟨none, true, 0⟩]

/-- The effects of an outbound iteration that reaches neither `break` nor
a panic before its end: the read, and one `Encode` when `nr > 0`. -/
def readEvents (t : OutStep) : List Event :=
  .read t.data t.err ::
    if t.data.isEmpty then [] else [.encode (contentMessage t.data) t.encodeOk]

/-- Output of the process as the tap delivers it: a read, an empty read, a
read, and a last read that comes together with end-of-stream. -/
def tapReads : List OutStep :=
  [⟨[36, 32], .nil, true⟩, ⟨[], .nil, true⟩, ⟨[108, 115], .nil, true⟩]

/-- The last read of the tap: two bytes together with end-of-stream. -/
def lastRead : OutStep := ⟨[10, 36], .EOF, true⟩

/-- Answers the environment holds after the end of the stream. -/
def unreadReads : List OutStep := [⟨[120], .nil, true⟩, ⟨[121], .other, false⟩]

/-- Whether an effect is the call `conn.Close()`. -/
def Event.isConnClose : Event → Bool
  | .connClose => true
  | _ => false

/-- A session whose outbound lane ends first: the `Encode` of the first
output fails; the decode of the inbound lane fails afterwards. -/
def outboundFirstEnv : Env :=
  { hello := some goodHello, ackOk := true,
    inbound := [⟨none, true, 0⟩],
    outbound := [⟨[36, 32], .nil, false⟩],
    sched := [false, false, false, false, false] }

/-- A session whose inbound lane ends first: the client goes away, the
decode fails, and the tap reaches end-of-stream later. -/
def inboundFirstEnv : Env :=
  { hello := some goodHello, ackOk := true,
    inbound := [⟨none, true, 0⟩],
    outbound := [⟨[36, 32], .nil, true⟩, ⟨[], .EOF, true⟩],
    sched := [true, true] }

/-- Whether an effect is a call `Close()` on a listener. -/
def Event.isListenerClose : Event → Bool
  | .listenerClose _ => true
  | _ => false

/-- A Host after `Serve` bound listener number 7. -/
def servingHost : Host := { NewHost with listener := some 7 }

/-- Wait status of a child that called `exit(3)`: `3 << 8`. -/
def exitedThree : WaitStatus := 768

/-- Wait status of a child ended by signal 9 (SIGKILL). -/
def killedByNine : WaitStatus := 9

/-! ## Lemmas on traces -/

theorem encoded_append (a b : List Event) : encoded (a ++ b) = encoded a ++ encoded b := by
  induction a with
  | nil => rfl
  | cons e rest ih => cases e <;> simp [encoded, ih]

theorem mem_encoded {v : Record} {l : List Event} :
    v ∈ encoded l ↔ ∃ ok, Event.encode v ok ∈ l := by
  induction l with
  | nil => simp [encoded]
  | cons e rest ih =>
    have step : (∃ ok, Event.encode v ok ∈ e :: rest) ↔
        (∃ ok, Event.encode v ok = e) ∨ ∃ ok, Event.encode v ok ∈ rest := by
      constructor
      · rintro ⟨ok, h⟩
        rcases List.mem_cons.mp h with h | h
        · exact Or.inl ⟨ok, h⟩
        · exact Or.inr ⟨ok, h⟩
      · rintro (⟨ok, h⟩ | ⟨ok, h⟩)
        · exact ⟨ok, h ▸ List.mem_cons_self _ _⟩
        · exact ⟨ok, List.mem_cons_of_mem _ h⟩
    rw [step, ← ih]
    cases e with
    | encode u b =>
      simp only [encoded, List.mem_cons, Event.encode.injEq]
      constructor
      · rintro (h | h)
        · exact Or.inl ⟨b, h, rfl⟩
        · exact Or.inr h
      · rintro (⟨ok, h, _⟩ | h)
        · exact Or.inl h
        · exact Or.inr h
    | _ => simp [encoded]

theorem encoded_eq_nil {l : List Event} (h : ∀ v ok, Event.encode v ok ∉ l) : encoded l = [] := by
  apply List.eq_nil_iff_forall_not_mem.mpr
  intro v hv
  obtain ⟨ok, hok⟩ := mem_encoded.mp hv
  exact h v ok hok

theorem mem_decodedMessages {r : Option Message} {l : List Event} :
    r ∈ decodedMessages l ↔ Event.decodeMessage r ∈ l := by
  induction l with
  | nil => simp [decodedMessages]
  | cons e rest ih => cases e <;> simp [decodedMessages, ih]

theorem interleave_perm (s : List Bool) (xs ys : List Event) :
    (interleave s xs ys).Perm (xs ++ ys) := by
  induction s generalizing xs ys with
  | nil =>
    cases xs with
    | nil => simp [interleave]
    | cons x xs => cases ys <;> simp [interleave]
  | cons b s ih =>
    induction xs generalizing ys with
    | nil => simp [interleave]
    | cons x xs ihx =>
      induction ys with
      | nil => simp [interleave]
      | cons y ys ihy =>
        cases b with
        | true =>
          simp only [interleave, List.cons_append]
          exact (ih xs (y :: ys)).cons x
        | false =>
          simp only [interleave]
          refine ((ih (x :: xs) ys).cons y).trans ?_
          have hmid : ((x :: xs) ++ y :: ys).Perm (y :: ((x :: xs) ++ ys)) := List.perm_middle
          exact hmid.symm

theorem mem_interleave {e : Event} {s : List Bool} {xs ys : List Event} :
    e ∈ interleave s xs ys ↔ e ∈ xs ∨ e ∈ ys := by
  rw [(interleave_perm s xs ys).mem_iff, List.mem_append]

theorem cutAtPanic_subset {e : Event} {l : List Event} (h : e ∈ cutAtPanic l) : e ∈ l := by
  induction l with
  | nil => simp [cutAtPanic] at h
  | cons x rest ih =>
    by_cases hx : x = .goPanic
    · simp [cutAtPanic, hx] at h
      simp [h, hx]
    · simp only [cutAtPanic, hx, if_false, List.mem_cons] at h
      rcases h with h | h
      · simp [h]
      · exact List.mem_cons_of_mem _ (ih h)

/-! ## Lemmas on the lanes -/

theorem inboundLoop_cons (host : Host) (s : InStep) (rest : List InStep) :
    inboundLoop host (s :: rest) =
      match (inboundIter host s).flow with
      | .again =>
        ⟨(inboundLoop (inboundIter host s).host rest).host,
          (inboundIter host s).events ++ (inboundLoop (inboundIter host s).host rest).events,
          (inboundLoop (inboundIter host s).host rest).ending⟩
      | .leave => ⟨(inboundIter host s).host, (inboundIter host s).events, .returned⟩
      | .abort => ⟨(inboundIter host s).host, (inboundIter host s).events, .panicked⟩ := rfl

theorem inboundLane_eq (host : Host) (steps : List InStep) :
    inboundLane host steps =
      match (inboundLoop host steps).ending with
      | .returned =>
        ⟨(inboundLoop host steps).host,
          (inboundLoop host steps).events ++ [.log .closedClientInput], .returned⟩
      | _ => inboundLoop host steps := rfl

theorem inboundIter_isInbound (host : Host) (s : InStep) :
    (inboundIter host s).events.all Event.isInbound = true := by
  unfold inboundIter Host.Resize
  split
  · rfl
  · split
    · split <;> rfl
    · split
      · split <;> rfl
      · rfl

theorem inboundLoop_isInbound (host : Host) (steps : List InStep) :
    (inboundLoop host steps).events.all Event.isInbound = true := by
  induction steps generalizing host with
  | nil => rfl
  | cons s rest ih =>
    have h1 := inboundIter_isInbound host s
    rw [inboundLoop_cons]
    cases (inboundIter host s).flow
    · simp only [List.all_append, h1, ih, Bool.and_self]
    · exact h1
    · exact h1

theorem inboundLane_isInbound (host : Host) (steps : List InStep) :
    ∀ e ∈ (inboundLane host steps).events, e.isInbound = true := by
  have h1 := inboundLoop_isInbound host steps
  rw [inboundLane_eq]
  apply List.all_eq_true.mp
  cases (inboundLoop host steps).ending
  · simp only [List.all_append, h1, Bool.true_and]; rfl
  · exact h1
  · exact h1

theorem outboundIter_isOutbound (s : OutStep) :
    (outboundIter s).1.all Event.isOutbound = true := by
  unfold outboundIter
  split
  · split
    · rfl
    · split
      · rfl
      · split <;> rfl
  · split
    · rfl
    · split <;> rfl

theorem outboundLoop_cons (s : OutStep) (rest : List OutStep) :
    outboundLoop (s :: rest) =
      match (outboundIter s).2 with
      | .again => ((outboundIter s).1 ++ (outboundLoop rest).1, (outboundLoop rest).2)
      | .leave => ((outboundIter s).1, .returned)
      | .abort => ((outboundIter s).1, .panicked) := by
  rcases h : outboundIter s with ⟨ev, f⟩
  cases f <;> simp [outboundLoop, h]

theorem outboundLane_eq (steps : List OutStep) :
    outboundLane steps =
      match (outboundLoop steps).2 with
      | .returned =>
        (.stdoutPipe :: (outboundLoop steps).1 ++ [.log .outputClosed, .connClose], .returned)
      | e => (.stdoutPipe :: (outboundLoop steps).1, e) := by
  rcases h : outboundLoop steps with ⟨ev, f⟩
  cases f <;> simp [outboundLane, h]

theorem outboundLoop_isOutbound (steps : List OutStep) :
    (outboundLoop steps).1.all Event.isOutbound = true := by
  induction steps with
  | nil => rfl
  | cons s rest ih =>
    have h1 := outboundIter_isOutbound s
    rw [outboundLoop_cons]
    cases (outboundIter s).2
    · simp only [List.all_append, h1, ih, Bool.and_self]
    · exact h1
    · exact h1

theorem outboundLane_isOutbound (steps : List OutStep) :
    ∀ e ∈ (outboundLane steps).1, e.isOutbound = true := by
  have h1 := outboundLoop_isOutbound steps
  rw [outboundLane_eq]
  apply List.all_eq_true.mp
  cases (outboundLoop steps).2
  · simp only [List.cons_append, List.all_cons, List.all_append, h1, Bool.true_and]; rfl
  · simp only [List.all_cons, h1]; rfl
  · simp only [List.all_cons, h1]; rfl

theorem inboundLoop_append (host : Host) (pre more : List InStep)
    (h : (inboundLoop host pre).ending = .blocked) :
    inboundLoop host (pre ++ more) =
      ⟨(inboundLoop (inboundLoop host pre).host more).host,
        (inboundLoop host pre).events ++ (inboundLoop (inboundLoop host pre).host more).events,
        (inboundLoop (inboundLoop host pre).host more).ending⟩ := by
  induction pre generalizing host with
  | nil => simp [inboundLoop]
  | cons s rest ih =>
    rw [inboundLoop_cons] at h
    rw [List.cons_append, inboundLoop_cons, inboundLoop_cons]
    cases hf : (inboundIter host s).flow
    · rw [hf] at h
      simp only [ih _ h, List.append_assoc]
    · rw [hf] at h; cases h
    · rw [hf] at h; cases h

theorem inboundIter_content (host : Host) (s : InStep) (m : Message) (c : Bytes)
    (hm : s.decoded = some m) (hc : m.Content = some c) :
    inboundIter host s =
      if s.writeOk then
        ⟨{ host with stdinPipe := host.stdinPipe ++ c },
          [.decodeMessage (some m), .stdinWrite c true], .again⟩
      else ⟨host, [.decodeMessage (some m), .stdinWrite c false, .goPanic], .abort⟩ := by
  simp only [inboundIter, hm, hc]

theorem inboundIter_resize (host : Host) (s : InStep) (m : Message)
    (hm : s.decoded = some m) (hc : m.Content = none)
    (hh : m.TtyHeight ≠ 0) (hw : m.TtyWidth ≠ 0) :
    inboundIter host s =
      ⟨(host.Resize m.TtyHeight m.TtyWidth s.errno).host,
        .decodeMessage (some m) :: (host.Resize m.TtyHeight m.TtyWidth s.errno).events,
        if (host.Resize m.TtyHeight m.TtyWidth s.errno).panicked then .abort else .again⟩ := by
  simp only [inboundIter, hm, hc, ne_eq, hh, hw, not_false_eq_true, and_self, if_true]

theorem inboundIter_neither (host : Host) (s : InStep) (m : Message)
    (hm : s.decoded = some m) (hc : m.Content = none)
    (hz : m.TtyHeight = 0 ∨ m.TtyWidth = 0) :
    inboundIter host s = ⟨host, [.decodeMessage (some m)], .again⟩ := by
  have : ¬ (m.TtyHeight ≠ 0 ∧ m.TtyWidth ≠ 0) := by
    rintro ⟨h1, h2⟩
    rcases hz with h | h
    · exact h1 h
    · exact h2 h
  simp only [inboundIter, hm, hc, this, if_false]

theorem uint16_of_range (x : Int) (h0 : 0 ≤ x) (h1 : x < 65536) : (uint16 x : Int) = x := by
  unfold uint16
  rw [Int.toNat_of_nonneg (Int.emod_nonneg _ (by decide)), Int.emod_eq_of_lt h0 h1]

theorem inboundLoop_encoded (host : Host) (steps : List InStep) :
    encoded (inboundLane host steps).events = [] := by
  apply encoded_eq_nil
  intro v ok hmem
  have := inboundLane_isInbound host steps _ hmem
  simp [Event.isInbound] at this

theorem outboundIter_clean (t : OutStep) (h1 : t.err = .nil)
    (h2 : t.data ≠ [] → t.encodeOk = true) : outboundIter t = (readEvents t, .again) := by
  unfold outboundIter readEvents contentMessage
  cases hd : t.data with
  | nil => simp [h1]
  | cons b bs =>
    have := h2 (by simp [hd])
    simp [h1, this]

theorem outboundIter_last (s : OutStep)
    (hs : s.err = .EOF ∨ (s.data ≠ [] ∧ s.encodeOk = false)) :
    outboundIter s = (readEvents s, .leave) := by
  unfold outboundIter readEvents contentMessage
  cases hd : s.data with
  | nil =>
    rcases hs with h | ⟨h, _⟩
    · simp [h]
    · exact absurd hd h
  | cons b bs =>
    cases hok : s.encodeOk with
    | false => simp
    | true =>
      rcases hs with h | ⟨_, h⟩
      · simp [h]
      · rw [hok] at h; cases h

theorem outboundLoop_stream (pre post : List OutStep) (s : OutStep)
    (hpre : ∀ t ∈ pre, t.err = .nil ∧ (t.data ≠ [] → t.encodeOk = true))
    (hs : s.err = .EOF ∨ (s.data ≠ [] ∧ s.encodeOk = false)) :
    outboundLoop (pre ++ s :: post) = ((pre ++ [s]).flatMap readEvents, .returned) := by
  induction pre with
  | nil => simp [outboundLoop_cons, outboundIter_last s hs]
  | cons t rest ih =>
    have ht := hpre t (List.mem_cons_self _ _)
    have hrest := ih (fun u hu => hpre u (List.mem_cons_of_mem _ hu))
    rw [List.cons_append, outboundLoop_cons, outboundIter_clean t ht.1 ht.2, hrest]
    simp

theorem encoded_readEvents (l : List OutStep) :
    encoded (l.flatMap readEvents) =
      (l.filter (fun t => !t.data.isEmpty)).map (fun t => contentMessage t.data) := by
  induction l with
  | nil => rfl
  | cons t rest ih =>
    rw [List.flatMap_cons, encoded_append, ih]
    cases hd : t.data <;> simp [readEvents, encoded, hd, List.filter_cons]

theorem content_readEvents (l : List OutStep) :
    ((encoded (l.flatMap readEvents)).map Record.content).flatten =
      (l.map OutStep.data).flatten := by
  induction l with
  | nil => rfl
  | cons t rest ih =>
    rw [List.flatMap_cons, encoded_append, List.map_append, List.flatten_append, ih]
    cases hd : t.data <;>
      simp [readEvents, encoded, hd, contentMessage, Record.content]

/-! ## Lemmas on the session -/

theorem streaming_eq (host : Host) (env : Env) :
    streaming host env =
      if Event.goPanic ∈
          interleave env.sched (inboundLane host env.inbound).events (outboundLane env.outbound).1
      then ⟨cutAtPanic (interleave env.sched (inboundLane host env.inbound).events
        (outboundLane env.outbound).1), .panicked⟩
      else if (inboundLane host env.inbound).ending = .returned ∧
          (outboundLane env.outbound).2 = .returned
      then ⟨interleave env.sched (inboundLane host env.inbound).events
        (outboundLane env.outbound).1 ++ [.connClose], .returned⟩
      else ⟨interleave env.sched (inboundLane host env.inbound).events
        (outboundLane env.outbound).1, .blocked⟩ := rfl

theorem streaming_events (host : Host) (env : Env) :
    ∀ e ∈ (streaming host env).trace, e.isInbound = true ∨ e.isOutbound = true := by
  have hmerge : ∀ e ∈ interleave env.sched (inboundLane host env.inbound).events
      (outboundLane env.outbound).1, e.isInbound = true ∨ e.isOutbound = true := by
    intro e he
    rcases mem_interleave.mp he with h | h
    · exact Or.inl (inboundLane_isInbound host env.inbound e h)
    · exact Or.inr (outboundLane_isOutbound env.outbound e h)
  intro e he
  rw [streaming_eq] at he
  split at he
  · exact hmerge e (cutAtPanic_subset he)
  · split at he
    · rcases List.mem_append.mp he with h | h
      · exact hmerge e h
      · rw [List.mem_singleton.mp h]; exact Or.inr rfl
    · exact hmerge e he

theorem handleRemoteClient_valid (host : Host) (env : Env) (hai : Hello)
    (hhello : env.hello = some hai) (hs : hai.Siphon = "siphon") (hc : hai.Hello = "client") :
    handleRemoteClient host env =
      if env.ackOk = false then
        ⟨[.decodeHello (some hai),
          .encode (.helloAck { Siphon := "siphon", Hello := "server" }) env.ackOk,
          .log .ackEncodeFailed, .connClose], .returned⟩
      else
        ⟨.decodeHello (some hai) ::
          .encode (.helloAck { Siphon := "siphon", Hello := "server" }) env.ackOk ::
          (streaming host env).trace, (streaming host env).ending⟩ := by
  unfold handleRemoteClient
  rw [hhello]
  simp only [hs, hc, ne_eq, not_true_eq_false, if_false]

theorem streaming_returned (host : Host) (env : Env)
    (h : (streaming host env).ending = .returned) :
    (inboundLane host env.inbound).ending = .returned ∧
    (outboundLane env.outbound).2 = .returned ∧
    (streaming host env).trace =
      interleave env.sched (inboundLane host env.inbound).events (outboundLane env.outbound).1
        ++ [.connClose] := by
  rw [streaming_eq] at h ⊢
  split at h
  · cases h
  · split at h
    next hp hboth => simp only [hp, hboth, and_self, if_true, if_false]
    next => cases h

theorem outboundLoop_no_connClose (steps : List OutStep) :
    (outboundLoop steps).1.all (fun e => !e.isConnClose) = true := by
  have hiter : ∀ s : OutStep, (outboundIter s).1.all (fun e => !e.isConnClose) = true := by
    intro s
    unfold outboundIter
    split
    · split
      · rfl
      · split
        · rfl
        · split <;> rfl
    · split
      · rfl
      · split <;> rfl
  induction steps with
  | nil => rfl
  | cons s rest ih =>
    have h1 := hiter s
    rw [outboundLoop_cons]
    cases (outboundIter s).2
    · simp only [List.all_append, h1, ih, Bool.and_self]
    · exact h1
    · exact h1

theorem count_connClose_outboundLane (steps : List OutStep)
    (h : (outboundLane steps).2 = .returned) :
    (outboundLane steps).1.count .connClose = 1 := by
  have hno : Event.connClose ∉ (outboundLoop steps).1 := by
    intro hmem
    have := List.all_eq_true.mp (outboundLoop_no_connClose steps) _ hmem
    simp [Event.isConnClose] at this
  rw [outboundLane_eq] at h ⊢
  cases he : (outboundLoop steps).2
  · simp [List.count_cons, List.count_append, List.count_eq_zero.mpr hno]
  · rw [he] at h; cases h
  · rw [he] at h; cases h

theorem stdoutPipe_mem_outboundLane (steps : List OutStep) :
    Event.stdoutPipe ∈ (outboundLane steps).1 := by
  rw [outboundLane_eq]
  cases (outboundLoop steps).2 <;> simp

theorem count_connClose_inboundLane (host : Host) (steps : List InStep) :
    (inboundLane host steps).events.count .connClose = 0 := by
  apply List.count_eq_zero.mpr
  intro hmem
  have := inboundLane_isInbound host steps _ hmem
  simp [Event.isInbound] at this

/-! ## The claims -/

/-- C1: when the first `Decode` fails, or yields a `Hello` whose `Siphon` is
not "siphon" or whose `Hello` is not "client", `handleRemoteClient` returns
after exactly three effects, the failed or rejected decode, one log line and
`conn.Close()`: no record is encoded, nothing is written to the stdin sink,
`Resize` is not called and no tap is registered through `StdoutPipe`. -/
theorem handshake_rejected_closes (host : Host) (env : Env)
    (hbad : env.hello = none ∨
      ∃ hai, env.hello = some hai ∧ (hai.Siphon ≠ "siphon" ∨ hai.Hello ≠ "client")) :
    (handleRemoteClient host env).ending = .returned ∧
    (∃ l, (handleRemoteClient host env).trace =
      [.decodeHello env.hello, .log l, .connClose]) ∧
    encoded (handleRemoteClient host env).trace = [] ∧
    stdinWrites (handleRemoteClient host env).trace = [] ∧
    resizeCalls (handleRemoteClient host env).trace = [] ∧
    Event.stdoutPipe ∉ (handleRemoteClient host env).trace := by
  rcases hbad with hnone | ⟨hai, hsome, hbad⟩
  · simp [handleRemoteClient, hnone, encoded, stdinWrites, resizeCalls]
  · by_cases hs : hai.Siphon = "siphon"
    · have hc : hai.Hello ≠ "client" := by
        rcases hbad with h | h
        · exact absurd hs h
        · exact h
      simp [handleRemoteClient, hsome, hs, hc, encoded, stdinWrites, resizeCalls]
    · simp [handleRemoteClient, hsome, hs, encoded, stdinWrites, resizeCalls]

/-- Witness of C1: a first record `Hello` with `Hello = "daemon"`. -/
theorem handshake_rejected_closes_witness :
    (rejectedEnv.hello = none ∨
      ∃ hai, rejectedEnv.hello = some hai ∧ (hai.Siphon ≠ "siphon" ∨ hai.Hello ≠ "client")) ∧
    (handleRemoteClient NewHost rejectedEnv).ending = .returned ∧
    encoded (handleRemoteClient NewHost rejectedEnv).trace = [] :=
  have hbad : rejectedEnv.hello = none ∨
      ∃ hai, rejectedEnv.hello = some hai ∧ (hai.Siphon ≠ "siphon" ∨ hai.Hello ≠ "client") :=
    Or.inr ⟨daemonHello, rfl, Or.inr (by decide)⟩
  ⟨hbad, (handshake_rejected_closes NewHost rejectedEnv hbad).1,
    (handshake_rejected_closes NewHost rejectedEnv hbad).2.2.1⟩

/-- C2: when the first record is a valid `Hello`, the first call to
`conn.Encode` carries `HelloAck` with `Siphon = "siphon"` and `Hello = "server"`,
it is the second effect of the session, right after the decode of the
`Hello` and so before any decode of a `Message`, and every record encoded
later is a `Message`; when that first `Encode` fails nothing more is encoded
or decoded. -/
theorem handshake_ack_first (host : Host) (env : Env) (hai : Hello)
    (hhello : env.hello = some hai) (hs : hai.Siphon = "siphon") (hc : hai.Hello = "client") :
    ∃ rest, (handleRemoteClient host env).trace =
        .decodeHello (some hai) ::
          .encode (.helloAck { Siphon := "siphon", Hello := "server" }) env.ackOk :: rest ∧
      (∀ v ∈ encoded rest, ∃ m, v = Record.message m) ∧
      (env.ackOk = false → encoded rest = [] ∧ decodedMessages rest = []) := by
  rw [handleRemoteClient_valid host env hai hhello hs hc]
  by_cases hack : env.ackOk = false
  · refine ⟨[.log .ackEncodeFailed, .connClose], ?_, ?_, ?_⟩
    · simp [hack]
    · simp [encoded]
    · intro _; simp [encoded, decodedMessages]
  · refine ⟨(streaming host env).trace, ?_, ?_, ?_⟩
    · simp [hack]
    · intro v hv
      obtain ⟨ok, hok⟩ := mem_encoded.mp hv
      rcases streaming_events host env _ hok with h | h
      · simp [Event.isInbound] at h
      · cases v <;> simp [Event.isOutbound] at h
        exact ⟨_, rfl⟩
    · intro h; exact absurd h hack

/-- Witness of C2: a session with input, a resize and output; the records
encoded are the `HelloAck` and then two `Message`s. -/
theorem handshake_ack_first_witness :
    busyEnv.hello = some goodHello ∧ goodHello.Siphon = "siphon" ∧ goodHello.Hello = "client" ∧
    ∃ rest, (handleRemoteClient NewHost busyEnv).trace =
        .decodeHello (some goodHello) ::
          .encode (.helloAck { Siphon := "siphon", Hello := "server" }) busyEnv.ackOk :: rest ∧
      (∀ v ∈ encoded rest, ∃ m, v = Record.message m) ∧
      (busyEnv.ackOk = false → encoded rest = [] ∧ decodedMessages rest = []) :=
  ⟨rfl, rfl, rfl, handshake_ack_first NewHost busyEnv goodHello rfl rfl rfl⟩

/-- C3: whenever the inbound lane decodes a `Message` whose `Content` is not
nil, whatever its `TtyHeight` and `TtyWidth`, the iteration makes one call
`in.Write` with exactly the bytes of `Content` and no call to `Resize` or to
the terminal-size call: the pty size is unchanged, a successful write appends
exactly those bytes to the stdin sink and the lane goes on with the next
`Decode`, a failed write panics. -/
theorem inbound_content_written (host : Host) (pre rest : List InStep) (s : InStep)
    (m : Message) (c : Bytes)
    (hpre : (inboundLoop host pre).ending = .blocked)
    (hm : s.decoded = some m) (hc : m.Content = some c) :
    stdinWrites (inboundIter (inboundLoop host pre).host s).events = [c] ∧
    resizeCalls (inboundIter (inboundLoop host pre).host s).events = [] ∧
    (∀ ws errno,
      Event.setWinsize ws errno ∉ (inboundIter (inboundLoop host pre).host s).events) ∧
    (inboundIter (inboundLoop host pre).host s).host.pty = (inboundLoop host pre).host.pty ∧
    (s.writeOk = true →
      (inboundIter (inboundLoop host pre).host s).host.stdinPipe =
        (inboundLoop host pre).host.stdinPipe ++ c) ∧
    (inboundLoop host (pre ++ s :: rest)).events =
      (inboundLoop host pre).events ++
        .decodeMessage (some m) :: .stdinWrite c s.writeOk ::
          (if s.writeOk then
            (inboundLoop (inboundIter (inboundLoop host pre).host s).host rest).events
          else [.goPanic]) := by
  rw [inboundLoop_append host pre _ hpre, inboundLoop_cons,
    inboundIter_content _ s m c hm hc]
  cases s.writeOk <;> simp [stdinWrites, resizeCalls]

/-- Witness of C3: after two messages of input, a message with content `q`
that also carries the pair 24 x 80. -/
theorem inbound_content_written_witness :
    (inboundLoop NewHost typedSteps).ending = .blocked ∧
    contentAndSizeStep.decoded = some ⟨some [113], 24, 80⟩ ∧
    stdinWrites (inboundIter (inboundLoop NewHost typedSteps).host contentAndSizeStep).events
      = [[113]] ∧
    resizeCalls (inboundIter (inboundLoop NewHost typedSteps).host contentAndSizeStep).events
      = [] :=
  ⟨rfl, rfl,
    (inbound_content_written NewHost typedSteps laterSteps contentAndSizeStep
      ⟨some [113], 24, 80⟩ [113] rfl rfl rfl).1,
    (inbound_content_written NewHost typedSteps laterSteps contentAndSizeStep
      ⟨some [113], 24, 80⟩ [113] rfl rfl rfl).2.1⟩

/-- Counterexample to C4 as stated: a `Message` without content with
`TtyHeight = 65576` and `TtyWidth = 120`, both nonzero, and a terminal-size
call that succeeds leave the pty at 40 x 120, not at 65576 x 120. -/
theorem resize_wraps_counterexample :
    tallResizeStep.decoded = some ⟨none, 65576, 120⟩ ∧ tallResizeStep.errno = 0 ∧
    (inboundIter NewHost tallResizeStep).host.pty = ⟨40, 120⟩ ∧
    ((inboundIter NewHost tallResizeStep).host.pty.Height : Int) ≠ 65576 := by
  decide

/-- C4, amended: whenever the inbound lane decodes a `Message` without
content whose `TtyHeight` h and `TtyWidth` w are both nonzero and the
terminal-size call succeeds, `Resize` is called once with (h, w) and the pty
size becomes (uint16 h, uint16 w), which is exactly (h, w) when both lie
between 0 and 65535; nothing is written to the stdin sink, the inbound lane
encodes no record at all, and it goes on with the next `Decode`. -/
theorem inbound_resize_applied (host : Host) (pre rest : List InStep) (s : InStep)
    (m : Message)
    (hpre : (inboundLoop host pre).ending = .blocked)
    (hm : s.decoded = some m) (hc : m.Content = none)
    (hh : m.TtyHeight ≠ 0) (hw : m.TtyWidth ≠ 0) (herr : s.errno = 0) :
    (inboundIter (inboundLoop host pre).host s).host.pty =
      ⟨uint16 m.TtyHeight, uint16 m.TtyWidth⟩ ∧
    (0 ≤ m.TtyHeight → m.TtyHeight < 65536 → 0 ≤ m.TtyWidth → m.TtyWidth < 65536 →
      ((inboundIter (inboundLoop host pre).host s).host.pty.Height : Int) = m.TtyHeight ∧
      ((inboundIter (inboundLoop host pre).host s).host.pty.Width : Int) = m.TtyWidth) ∧
    resizeCalls (inboundIter (inboundLoop host pre).host s).events
      = [(m.TtyHeight, m.TtyWidth)] ∧
    (inboundIter (inboundLoop host pre).host s).host.stdinPipe =
      (inboundLoop host pre).host.stdinPipe ∧
    stdinWrites (inboundIter (inboundLoop host pre).host s).events = [] ∧
    encoded (inboundLane host (pre ++ s :: rest)).events = [] ∧
    (inboundLoop host (pre ++ s :: rest)).events =
      (inboundLoop host pre).events ++
        .decodeMessage (some m) :: .log (.resizing m.TtyHeight m.TtyWidth) ::
          .setWinsize ⟨uint16 m.TtyHeight, uint16 m.TtyWidth⟩ 0 ::
          (inboundLoop (inboundIter (inboundLoop host pre).host s).host rest).events := by
  have hiter := inboundIter_resize (inboundLoop host pre).host s m hm hc hh hw
  refine ⟨?_, ?_, ?_, ?_, ?_, inboundLoop_encoded host _, ?_⟩
  · rw [hiter]; simp [Host.Resize, SetWinsize, herr]
  · intro h0 h1 w0 w1
    rw [hiter]
    simp only [Host.Resize, SetWinsize, herr, if_true]
    exact ⟨uint16_of_range _ h0 h1, uint16_of_range _ w0 w1⟩
  · rw [hiter]; simp [Host.Resize, herr, resizeCalls]
  · rw [hiter]; simp [Host.Resize, herr]
  · rw [hiter]; simp [Host.Resize, herr, stdinWrites]
  · rw [inboundLoop_append host pre _ hpre, inboundLoop_cons]
    rw [hiter]
    simp [Host.Resize, herr]

/-- Witness of C4: the message with height 40 and width 120 sets the pty to
40 x 120, and `Resize(24, 80)` with a successful call sets it to 24 x 80. -/
theorem inbound_resize_applied_witness :
    ((inboundLoop NewHost typedSteps).ending = .blocked ∧
      resizeStep.decoded = some ⟨none, 40, 120⟩ ∧ resizeStep.errno = 0) ∧
    (inboundIter (inboundLoop NewHost typedSteps).host resizeStep).host.pty = ⟨40, 120⟩ ∧
    (Host.Resize NewHost 24 80 0).host.pty = ⟨24, 80⟩ :=
  ⟨⟨rfl, rfl, rfl⟩,
    (inbound_resize_applied NewHost typedSteps laterSteps resizeStep ⟨none, 40, 120⟩
      rfl rfl rfl (by decide) (by decide) rfl).1,
    by decide⟩

/-- Counterexample to C5 as stated: after a `Message` with no content, height
0 and width 80 the lane does not end; it decodes the next `Message` and writes
its content to the stdin sink, and only the later decode error ends it. -/
theorem inbound_empty_message_counterexample :
    decodedMessages (inboundLane NewHost (emptyStep :: laterSteps)).events =
      [some ⟨none, 0, 80⟩, some ⟨some [104], 0, 0⟩, none] ∧
    stdinWrites (inboundLane NewHost (emptyStep :: laterSteps)).events = [[104]] := by
  decide

/-- C5, amended: whenever the inbound lane decodes a `Message` with no
content and with `TtyHeight = 0` or `TtyWidth = 0`, it calls neither `in.Write`
nor `Resize`, leaves the Host as it is, and goes on to decode the next
`Message`: the lane ends exactly as it does on the records that follow. -/
theorem inbound_empty_message_ignored (host : Host) (pre rest : List InStep) (s : InStep)
    (m : Message)
    (hpre : (inboundLoop host pre).ending = .blocked)
    (hm : s.decoded = some m) (hc : m.Content = none)
    (hz : m.TtyHeight = 0 ∨ m.TtyWidth = 0) :
    inboundIter (inboundLoop host pre).host s =
      ⟨(inboundLoop host pre).host, [.decodeMessage (some m)], .again⟩ ∧
    stdinWrites (inboundIter (inboundLoop host pre).host s).events = [] ∧
    resizeCalls (inboundIter (inboundLoop host pre).host s).events = [] ∧
    (inboundLoop host (pre ++ s :: rest)).events =
      (inboundLoop host pre).events ++
        .decodeMessage (some m) :: (inboundLoop (inboundLoop host pre).host rest).events ∧
    (inboundLoop host (pre ++ s :: rest)).ending =
      (inboundLoop (inboundLoop host pre).host rest).ending := by
  have hiter := inboundIter_neither (inboundLoop host pre).host s m hm hc hz
  rw [inboundLoop_append host pre _ hpre, inboundLoop_cons, hiter]
  simp [stdinWrites, resizeCalls]

/-- Witness of C5: the message with height 0 and width 80, after two messages
of input. -/
theorem inbound_empty_message_ignored_witness :
    ((inboundLoop NewHost typedSteps).ending = .blocked ∧
      emptyStep.decoded = some ⟨none, 0, 80⟩) ∧
    (inboundLoop NewHost (typedSteps ++ emptyStep :: laterSteps)).ending =
      (inboundLoop (inboundLoop NewHost typedSteps).host laterSteps).ending :=
  ⟨⟨rfl, rfl⟩,
    (inbound_empty_message_ignored NewHost typedSteps laterSteps emptyStep ⟨none, 0, 80⟩
      rfl rfl rfl (Or.inl rfl)).2.2.2.2⟩

/-- Counterexample to C6 as stated: with errno 25 from the terminal-size call
`Resize(24, 80)` panics, and the inbound lane that called it ends in that
panic without decoding the `Message` that follows. -/
theorem resize_failure_counterexample :
    (Host.Resize NewHost 24 80 25).panicked = true ∧
    (inboundLane NewHost (refusedResizeStep :: laterSteps)).ending = .panicked ∧
    decodedMessages (inboundLane NewHost (refusedResizeStep :: laterSteps)).events =
      [some ⟨none, 24, 80⟩] := by
  decide

/-- C6, amended: `Host.Resize(h, w)` treats a failure of the terminal-size
call as fatal: for every h and w, when the call fails, `Resize` panics and
returns nothing to its caller; the pty size is unchanged; the inbound lane
that invoked it ends in that panic and decodes no further `Message`. -/
theorem resize_failure_panics (host : Host) (pre rest : List InStep) (s : InStep)
    (m : Message)
    (hpre : (inboundLoop host pre).ending = .blocked)
    (hm : s.decoded = some m) (hc : m.Content = none)
    (hh : m.TtyHeight ≠ 0) (hw : m.TtyWidth ≠ 0) (herr : s.errno ≠ 0) :
    (∀ (h0 : Host) (h w : Int),
      (h0.Resize h w s.errno).panicked = true ∧
      (h0.Resize h w s.errno).host.pty = h0.pty ∧
      (h0.Resize h w s.errno).events =
        [.log (.resizing h w), .setWinsize ⟨uint16 h, uint16 w⟩ s.errno, .goPanic]) ∧
    inboundLane host (pre ++ s :: rest) =
      ⟨(inboundLoop host pre).host,
        (inboundLoop host pre).events ++
          [.decodeMessage (some m), .log (.resizing m.TtyHeight m.TtyWidth),
            .setWinsize ⟨uint16 m.TtyHeight, uint16 m.TtyWidth⟩ s.errno, .goPanic],
        .panicked⟩ := by
  have hres : ∀ (h0 : Host) (h w : Int),
      (h0.Resize h w s.errno).panicked = true ∧
      (h0.Resize h w s.errno).host.pty = h0.pty ∧
      (h0.Resize h w s.errno).events =
        [.log (.resizing h w), .setWinsize ⟨uint16 h, uint16 w⟩ s.errno, .goPanic] := by
    intro h0 h w
    simp [Host.Resize, SetWinsize, herr]
  refine ⟨hres, ?_⟩
  have hiter := inboundIter_resize (inboundLoop host pre).host s m hm hc hh hw
  obtain ⟨hp, hpty, hev⟩ := hres (inboundLoop host pre).host m.TtyHeight m.TtyWidth
  rw [inboundLane_eq, inboundLoop_append host pre _ hpre, inboundLoop_cons, hiter]
  simp only [hp, if_true, hev]
  simp [Host.Resize, SetWinsize, herr]

/-- Witness of C6: the request 24 x 80 refused with errno 25, after two
messages of input and before one more byte of input. -/
theorem resize_failure_panics_witness :
    ((inboundLoop NewHost typedSteps).ending = .blocked ∧
      refusedResizeStep.decoded = some ⟨none, 24, 80⟩ ∧ refusedResizeStep.errno ≠ 0) ∧
    (inboundLane NewHost (typedSteps ++ refusedResizeStep :: laterSteps)).ending = .panicked :=
  ⟨⟨rfl, rfl, by decide⟩,
    congrArg LaneRun.ending
      (resize_failure_panics NewHost typedSteps laterSteps refusedResizeStep ⟨none, 24, 80⟩
        rfl rfl rfl (by decide) (by decide) (by decide)).2⟩

/-- C7: when the reads of the tap are error-free up to a read that comes
with end-of-stream, or whose `Encode` fails, and every earlier `Encode`
succeeds, the outbound lane registers its tap, then performs for each read
up to that one, in order, the read and, when it is not empty, one `Encode` of
a `Message` whose `Content` is the bytes read (none for an empty read), then
logs, closes the connection and returns; nothing that follows that read is
read or encoded.  So the encoded records are one `Message` per non-empty read
and the concatenation of their `Content` is the concatenation of the bytes
read. -/
theorem outbound_lane_streams (pre post : List OutStep) (s : OutStep)
    (hpre : ∀ t ∈ pre, t.err = .nil ∧ (t.data ≠ [] → t.encodeOk = true))
    (hs : s.err = .EOF ∨ (s.data ≠ [] ∧ s.encodeOk = false)) :
    outboundLane (pre ++ s :: post) =
      (.stdoutPipe :: (pre ++ [s]).flatMap readEvents ++ [.log .outputClosed, .connClose],
        .returned) ∧
    outboundLane (pre ++ s :: post) = outboundLane (pre ++ [s]) ∧
    encoded (outboundLane (pre ++ s :: post)).1 =
      ((pre ++ [s]).filter (fun t => !t.data.isEmpty)).map (fun t => contentMessage t.data) ∧
    ((encoded (outboundLane (pre ++ s :: post)).1).map Record.content).flatten =
      ((pre ++ [s]).map OutStep.data).flatten := by
  have hlane : ∀ more, outboundLane (pre ++ s :: more) =
      (.stdoutPipe :: (pre ++ [s]).flatMap readEvents ++ [.log .outputClosed, .connClose],
        .returned) := by
    intro more
    rw [outboundLane_eq, outboundLoop_stream pre more s hpre hs]
  have henc : encoded (.stdoutPipe :: (pre ++ [s]).flatMap readEvents ++
      [.log .outputClosed, .connClose]) = encoded ((pre ++ [s]).flatMap readEvents) := by
    rw [List.cons_append, encoded, encoded_append]
    · simp [encoded]
    · intro v ok h; cases h
  refine ⟨hlane post, ?_, ?_, ?_⟩
  · rw [hlane post, hlane []]
  · rw [hlane post]
    simp only [henc, encoded_readEvents]
  · rw [hlane post]
    simp only [henc, content_readEvents]

/-- Witness of C7: three reads, one of them empty, then two bytes together
with end-of-stream; the answers after the end of the stream are not used. -/
theorem outbound_lane_streams_witness :
    ((∀ t ∈ tapReads, t.err = .nil ∧ (t.data ≠ [] → t.encodeOk = true)) ∧
      (lastRead.err = .EOF ∨ (lastRead.data ≠ [] ∧ lastRead.encodeOk = false))) ∧
    encoded (outboundLane (tapReads ++ lastRead :: unreadReads)).1 =
      [contentMessage [36, 32], contentMessage [108, 115], contentMessage [10, 36]] :=
  ⟨⟨by decide, Or.inl rfl⟩,
    (outbound_lane_streams tapReads unreadReads lastRead (by decide) (Or.inl rfl)).2.2.1⟩

/-- Counterexample to C8 as stated: two sessions reach the streaming state
and `handleRemoteClient` returns, one whose outbound lane ends first on an
`Encode` failure and one whose inbound lane ends first on a `Decode` failure;
in both a tap was registered through `StdoutPipe` and the session never
closes its reader. -/
theorem tap_left_open_counterexample :
    ((handleRemoteClient NewHost outboundFirstEnv).ending = .returned ∧
      Event.stdoutPipe ∈ (handleRemoteClient NewHost outboundFirstEnv).trace ∧
      Event.readerClose ∉ (handleRemoteClient NewHost outboundFirstEnv).trace) ∧
    ((handleRemoteClient NewHost inboundFirstEnv).ending = .returned ∧
      Event.stdoutPipe ∈ (handleRemoteClient NewHost inboundFirstEnv).trace ∧
      Event.readerClose ∉ (handleRemoteClient NewHost inboundFirstEnv).trace) := by
  decide

/-- C8, amended: for every session that reaches the streaming state and whose
`handleRemoteClient` returns, under every schedule of the two lanes, both
lanes have ended, the connection has been closed, once by the outbound lane
and once more by the deferred `conn.Close()` that is the last effect of the
session, and the reader obtained from `StdoutPipe` has not been closed by the
session. -/
theorem session_end_closes_conn (host : Host) (env : Env) (hai : Hello)
    (hhello : env.hello = some hai) (hs : hai.Siphon = "siphon") (hc : hai.Hello = "client")
    (hack : env.ackOk = true)
    (hret : (handleRemoteClient host env).ending = .returned) :
    (inboundLane host env.inbound).ending = .returned ∧
    (outboundLane env.outbound).2 = .returned ∧
    (handleRemoteClient host env).trace.getLast? = some .connClose ∧
    (handleRemoteClient host env).trace.count .connClose = 2 ∧
    Event.stdoutPipe ∈ (handleRemoteClient host env).trace ∧
    Event.readerClose ∉ (handleRemoteClient host env).trace := by
  rw [handleRemoteClient_valid host env hai hhello hs hc] at hret ⊢
  simp only [hack, Bool.true_eq_false, if_false] at hret ⊢
  obtain ⟨hin, hout, htrace⟩ := streaming_returned host env hret
  refine ⟨hin, hout, ?_, ?_, ?_, ?_⟩
  · rw [htrace, ← List.cons_append, ← List.cons_append]
    exact List.getLast?_concat _
  · rw [htrace]
    have hperm := (interleave_perm env.sched (inboundLane host env.inbound).events
      (outboundLane env.outbound).1).count_eq Event.connClose
    simp [List.count_cons, List.count_append, hperm, count_connClose_inboundLane,
      count_connClose_outboundLane env.outbound hout]
  · rw [htrace]
    have := stdoutPipe_mem_outboundLane env.outbound
    simp [mem_interleave, this]
  · intro hmem
    simp only [List.mem_cons, reduceCtorEq, false_or] at hmem
    rcases streaming_events host env _ hmem with h | h
    · simp [Event.isInbound] at h
    · simp [Event.isOutbound] at h

/-- Witness of C8: the session whose inbound lane ends first. -/
theorem session_end_closes_conn_witness :
    (inboundFirstEnv.hello = some goodHello ∧ goodHello.Siphon = "siphon" ∧
      goodHello.Hello = "client" ∧ inboundFirstEnv.ackOk = true ∧
      (handleRemoteClient NewHost inboundFirstEnv).ending = .returned) ∧
    (handleRemoteClient NewHost inboundFirstEnv).trace.count .connClose = 2 :=
  ⟨⟨rfl, rfl, rfl, rfl, by decide⟩,
    (session_end_closes_conn NewHost inboundFirstEnv goodHello rfl rfl rfl rfl
      (by decide)).2.2.2.1⟩

/-- Counterexample to C9 as stated: for a child ended by signal 9 the exit
notification fires and `Wait` returns -1, which is neither the signal number
9 nor the wait status 9 of the process. -/
theorem wait_signaled_counterexample :
    WaitStatus.Signaled killedByNine = true ∧ WaitStatus.Signal killedByNine = 9 ∧
    (exitWaitTask NewHost (cmdWait killedByNine)).map (fun done => (done.exitCh, done.Wait.1))
      = some (true, some (-1)) := by
  decide

/-- C9, amended: for every wait status of the child, on a Host whose
`exitCode` still has the zero value `NewHost` left, the exit-wait task fires
the exit notification and from then on `Wait` returns what `ExitStatus()`
gives for that status: 0 when the child exited cleanly, the exit status n
(bits 8 to 15 of the wait status) when it exited with status n, and -1 when it
did not exit but was ended by a signal; `Wait` leaves the Host as it is, so
every call returns that same value. -/
theorem wait_returns_exit_status (host : Host) (w : WaitStatus) (h0 : host.exitCode = 0) :
    ∃ done, exitWaitTask host (cmdWait w) = some done ∧ done.exitCh = true ∧
      done.Wait = (some (WaitStatus.ExitStatus w), done) ∧
      (done.Wait.2).Wait = done.Wait ∧
      (cmdWait w = .nil → done.Wait.1 = some 0) ∧
      (WaitStatus.Exited w = true → done.Wait.1 = some ((w / 256 % 256 : Nat) : Int)) ∧
      (WaitStatus.Exited w = false → done.Wait.1 = some (-1)) := by
  by_cases hclean : (WaitStatus.Exited w && WaitStatus.ExitStatus w == 0) = true
  · have hcmd : cmdWait w = .nil := by simp only [cmdWait, hclean, if_true]
    have hex : WaitStatus.Exited w = true := by
      cases h : WaitStatus.Exited w
      · rw [h] at hclean; cases hclean
      · rfl
    have hst : WaitStatus.ExitStatus w = 0 := by
      rw [hex, Bool.true_and] at hclean
      exact eq_of_beq hclean
    have hbits : ((w / 256 % 256 : Nat) : Int) = 0 := by
      rw [← hst]; simp only [WaitStatus.ExitStatus, hex, if_true]
    refine ⟨{ host with exitCh := true }, ?_, rfl, ?_, rfl, ?_, ?_, ?_⟩
    · rw [hcmd]; rfl
    · simp only [Host.Wait, if_true, h0, hst]
    · intro _; simp only [Host.Wait, if_true, h0]
    · intro _; simp only [Host.Wait, if_true, h0, hbits]
    · intro h; rw [hex] at h; cases h
  · have hcmd : cmdWait w = .exitError (some w) := by
      unfold cmdWait
      rw [if_neg hclean]
    refine ⟨{ host with exitCode := WaitStatus.ExitStatus w, exitCh := true }, ?_, rfl, ?_,
      rfl, ?_, ?_, ?_⟩
    · rw [hcmd]; rfl
    · simp only [Host.Wait, if_true]
    · intro h; rw [hcmd] at h; cases h
    · intro h; simp only [Host.Wait, if_true, WaitStatus.ExitStatus, h]
    · intro h; simp [Host.Wait, WaitStatus.ExitStatus, h]

/-- Witness of C9: a child that called `exit(3)`; `Wait` returns 3. -/
theorem wait_returns_exit_status_witness :
    NewHost.exitCode = 0 ∧
    ∃ done, exitWaitTask NewHost (cmdWait exitedThree) = some done ∧ done.exitCh = true ∧
      done.Wait = (some (WaitStatus.ExitStatus exitedThree), done) ∧
      (done.Wait.2).Wait = done.Wait ∧
      (cmdWait exitedThree = .nil → done.Wait.1 = some 0) ∧
      (WaitStatus.Exited exitedThree = true →
        done.Wait.1 = some ((exitedThree / 256 % 256 : Nat) : Int)) ∧
      (WaitStatus.Exited exitedThree = false → done.Wait.1 = some (-1)) :=
  ⟨rfl, wait_returns_exit_status NewHost exitedThree rfl⟩

/-- C10: `Host.UnServe` is idempotent: for every Host a second call right
after a first leaves the Host as the first call left it, with the listener
cleared, and has no effect at all (no log line, no `Close`); over both calls
the listener is closed at most once; on a Host without a listener `UnServe`
changes nothing and does nothing, and on a Host with a listener it logs,
closes that listener once and clears the field. -/
theorem unServe_idempotent (host : Host) :
    (host.UnServe.1).UnServe = (host.UnServe.1, []) ∧
    host.UnServe.1.listener = none ∧
    (host.UnServe.2 ++ (host.UnServe.1).UnServe.2).countP Event.isListenerClose ≤ 1 ∧
    (host.listener = none → host.UnServe = (host, [])) ∧
    (∀ x, host.listener = some x →
      host.UnServe = ({ host with listener := none }, [.log .haltingAccept, .listenerClose x])) := by
  cases hl : host.listener with
  | none => simp [Host.UnServe, hl]
  | some x => simp [Host.UnServe, hl, Event.isListenerClose]

/-- Witness of C10: a Host that serves on listener 7; the first call closes
that listener, the second does nothing. -/
theorem unServe_idempotent_witness :
    servingHost.UnServe.2 = [.log .haltingAccept, .listenerClose 7] ∧
    (servingHost.UnServe.1).UnServe = (servingHost.UnServe.1, []) :=
  ⟨congrArg Prod.snd ((unServe_idempotent servingHost).2.2.2.2 7 rfl),
    (unServe_idempotent servingHost).1⟩

end Siphon
